import Mathlib

/-!
Shallow embedding of the podcast-generation backend
(`backend/services/openai_service.py`, `script_generator.py`,
`audio_service.py`, `qa_context_builder.py`,
`backend/database/podcast_storage.py`, `backend/api/routes/podcasts.py`)
together with theorems settling the frozen claims about it.
-/

namespace Podcast

/-! ## Retry/backoff wrapper (`openai_service.exponential_backoff_retry`) -/

/-- Error classes raised by the OpenAI client, as distinguished by the
`except` clauses of `exponential_backoff_retry`. -/
inductive ErrKind where
  | rateLimit
  | connection
  | timeout
  | apiError
  | openAIError
deriving DecidableEq, Repr

/-- Outcome of one underlying completion attempt: a successful value or a
raised error of some kind carrying a message. -/
inductive CallOutcome where
  | ok (v : String)
  | err (k : ErrKind) (msg : String)
deriving DecidableEq, Repr

/-- `True` for the error kinds the wrapper retries on. -/
def ErrKind.transient : ErrKind → Bool
  | .rateLimit | .connection | .timeout => true
  | .apiError | .openAIError => false

/-- Normalized `OpenAIServiceError` message produced for an error kind,
as built by the wrapper's `raise OpenAIServiceError(...)` calls. -/
def normMsg (k : ErrKind) (msg : String) : String :=
  match k with
  | .rateLimit => "Rate limit exceeded: " ++ msg
  | .connection | .timeout => "Network error: " ++ msg
  | .apiError => "API error: " ++ msg
  | .openAIError => "OpenAI error: " ++ msg

/-- The `for attempt in range(max_retries)` loop of
`exponential_backoff_retry`, with `max_retries = 3` and `base_delay = 1`.
`outcomes n` is what the wrapped call does on attempt number `n`
(0-based).  Returns the final result (normalized error message on
failure) together with the list of sleeps (in seconds) performed between
attempts, in order. -/
def ebrLoop (outcomes : Nat → CallOutcome) (attempt : Nat) :
    Nat → Except String String × List Nat
  | 0 => (.error "loop exhausted", [])
  | rem + 1 =>
    match outcomes attempt with
    | .ok v => (.ok v, [])
    | .err k msg =>
      if k.transient then
        if attempt = 3 - 1 then (.error (normMsg k msg), [])
        else
          let delay := 1 * 2 ^ attempt
          let r := ebrLoop outcomes (attempt + 1) rem
          (r.1, delay :: r.2)
      else (.error (normMsg k msg), [])

/-- `exponential_backoff_retry(func)` applied to a call whose successive
attempts behave as `outcomes`. -/
def exponential_backoff_retry (outcomes : Nat → CallOutcome) :
    Except String String × List Nat :=
  ebrLoop outcomes 0 3

/-! ## Script generator (`script_generator.py`) -/

/-- One dialogue exchange `{"speaker": ..., "text": ...}`. -/
structure Line where
  speaker : String
  text : String
deriving DecidableEq, Repr

/-- Python `str.lower()` (ASCII behaviour). -/
def strLower (s : String) : String :=
  String.mk (s.data.map Char.toLower)

/-- `_determine_chunk_count(target_length, total_chunks)`. -/
def _determine_chunk_count (target_length : String) (total_chunks : Nat) : Nat :=
  let k := strLower target_length
  let desired_chunks :=
    if k = "short" then 3
    else if k = "medium" then 6
    else if k = "long" then 12
    else 6
  min desired_chunks total_chunks

/-- `_get_duration_minutes(target_length)`. -/
def _get_duration_minutes (target_length : String) : Nat :=
  let k := strLower target_length
  if k = "short" then 3
  else if k = "medium" then 5
  else if k = "long" then 10
  else 5

/-- The chunk-selection step of `generate_podcast_script`:
`selected_chunks = chunks[:num_chunks]` with
`num_chunks = _determine_chunk_count(target_length, len(chunks))`. -/
def selectChunks (chunks : List String) (target_length : String) : List String :=
  chunks.take (_determine_chunk_count target_length chunks.length)

/-! Character-list models of the Python string operations used by
`_parse_dialogue_to_script`: `str.strip`, `str.lower`, `str.split("\n")`,
`str.split(":", 1)` and the `in` substring test. -/

/-- Python `str.strip()` on a character list. -/
def stripL (l : List Char) : List Char :=
  ((l.dropWhile Char.isWhitespace).reverse.dropWhile Char.isWhitespace).reverse

/-- Python `str.lower()` on a character list (ASCII behaviour). -/
def lowerL (l : List Char) : List Char :=
  l.map Char.toLower

/-- Python `str.split("\n")` on a character list. -/
def splitNL (l : List Char) : List (List Char) :=
  l.foldr
    (fun c acc =>
      if c = '\n' then [] :: acc
      else
        match acc with
        | h :: t => (c :: h) :: t
        | [] => [[c]])
    [[]]

/-- Python `line.split(":", 1)`: the part before the first `':'` and,
when a `':'` occurs, the part after it. -/
def splitColon : List Char → List Char × Option (List Char)
  | [] => ([], none)
  | c :: t =>
    if c = ':' then ([], some t)
    else
      let r := splitColon t
      (c :: r.1, r.2)

/-- `needle` is a prefix of `l` (Python `s.startswith`). -/
def isPrefixL : List Char → List Char → Bool
  | [], _ => true
  | _ :: _, [] => false
  | a :: as, b :: bs => a == b && isPrefixL as bs

/-- Python substring test `needle in l`. -/
def containsL (needle : List Char) : List Char → Bool
  | [] => needle.isEmpty
  | h :: t => isPrefixL needle (h :: t) || containsL needle t

/-- Speaker classification of `_parse_dialogue_to_script`: the branch
`if 'host' in speaker_raw or 'alex' in speaker_raw or 'host a' in
speaker_raw ... elif 'guest' in speaker_raw or 'jordan' in speaker_raw or
'host b' in speaker_raw ... else: continue`, applied to the lowercased
stripped label. -/
def classifySpeaker (speaker_raw : List Char) : Option String :=
  if containsL "host".data speaker_raw || containsL "alex".data speaker_raw
      || containsL "host a".data speaker_raw then some "host"
  else if containsL "guest".data speaker_raw || containsL "jordan".data speaker_raw
      || containsL "host b".data speaker_raw then some "guest"
  else none

/-- The same classification with the `'host b'` alias removed from the
guest branch; stated by the claim to be equivalent because that alias is
unreachable. -/
def classifySpeakerNoHostB (speaker_raw : List Char) : Option String :=
  if containsL "host".data speaker_raw || containsL "alex".data speaker_raw
      || containsL "host a".data speaker_raw then some "host"
  else if containsL "guest".data speaker_raw || containsL "jordan".data speaker_raw
      then some "guest"
  else none

/-- The per-line body of `_parse_dialogue_to_script`'s loop: `none` when
the line is skipped (`continue` or no append), `some` when an entry is
appended to the script. -/
def parseLine (rawLine : List Char) : Option Line :=
  let line := stripL rawLine
  if line.isEmpty then none
  else
    match splitColon line with
    | (_, none) => none
    | (pre, some post) =>
      let speaker_raw := lowerL (stripL pre)
      let text := stripL post
      match classifySpeaker speaker_raw with
      | none => none
      | some speaker =>
        if text.isEmpty then none
        else some ⟨speaker, String.mk text⟩

/-- `_parse_dialogue_to_script(dialogue_text)`: splits the stripped text
on newlines, parses each line, and raises `ScriptGenerationError` when no
line parses. -/
def _parse_dialogue_to_script (dialogue_text : String) :
    Except String (List Line) :=
  let script := (splitNL (stripL dialogue_text.data)).filterMap parseLine
  if script.isEmpty then .error "Could not parse dialogue into script format"
  else .ok script

/-- `validate_script(script)`. -/
def validate_script (script : List Line) : Bool :=
  if script.length < 4 then false
  else if script.any (fun e =>
      !(e.speaker = "host" || e.speaker = "guest")
      || e.text = "" || e.text.length < 10) then false
  else
    let host_count := (script.filter (fun e => e.speaker = "host")).length
    let guest_count := (script.filter (fun e => e.speaker = "guest")).length
    if host_count = 0 || guest_count = 0 then false else true

/-! ## Audio synthesis coordinator (`audio_service.synthesize_audio`)

The filesystem is modelled as the list of file names under the podcast
directory (duplicate-free by construction).  `generate_speech` writes its
output file directly under the podcast directory (the `temp` subdirectory
that `synthesize_audio` creates never receives any file and is therefore
empty when the `finally` block tests it), so the temp directory is
modelled as a single boolean. -/

/-- Write a file: `open(path, "wb")` creates or overwrites. -/
def fsWrite (fs : List String) (p : String) : List String :=
  if p ∈ fs then fs else fs ++ [p]

/-- Python `f"{i:03d}"`. -/
def pad3 (n : Nat) : String :=
  let s := toString n
  if n < 10 then "00" ++ s else if n < 100 then "0" ++ s else s

/-- The temporary segment file name
`f"temp_{session_id}_segment_{i:03d}.mp3"`. -/
def segName (sid : String) (i : Nat) : String :=
  "temp_" ++ sid ++ "_segment_" ++ pad3 i ++ ".mp3"

/-- A script line passes the two skip checks of the synthesis loop:
`if not speaker or not text: continue` and
`if speaker not in VOICE_CONFIG: continue`. -/
def lineValid (l : Line) : Prop :=
  ¬(l.speaker = "" ∨ l.text = "") ∧ (l.speaker = "host" ∨ l.speaker = "guest")

instance (l : Line) : Decidable (lineValid l) := by
  unfold lineValid
  infer_instance

/-- Errors raised by `synthesize_audio`: the two `ValueError`s raised
before the `try` block, and the generic wrapper
`Exception(f"Failed to synthesize audio: {e}")` re-raised by its
`except` clause. -/
inductive AudioError where
  | emptyScript
  | noOutputFilename
  | synthFailure (msg : String)
deriving DecidableEq, Repr

/-- `str(e)` of an `AudioError`, as seen by the pipeline's handler. -/
def AudioError.message : AudioError → String
  | .emptyScript => "Script cannot be empty"
  | .noOutputFilename => "Output filename is required"
  | .synthFailure m => "Failed to synthesize audio: " ++ m

/-- Mutable state of the segment-generation loop: the `temp_files` list,
the filesystem, and the `progress_callback` invocations so far. -/
structure LoopSt where
  temps : List String
  fs : List String
  calls : List (Nat × Nat)
deriving DecidableEq, Repr

/-- The `for i, line in enumerate(script)` loop of `synthesize_audio`.
`gen i` is the outcome of the `generate_speech` call for line `i` (which
writes `segName sid i` on success).  Returns `.error msg` when a
synthesis call raises. -/
def segLoop (gen : Nat → Except String Unit) (sid : String) (total : Nat) :
    List (Nat × Line) → LoopSt → Except String Unit × LoopSt
  | [], st => (.ok (), st)
  | (i, line) :: rest, st =>
    if line.speaker = "" ∨ line.text = "" then segLoop gen sid total rest st
    else if ¬(line.speaker = "host" ∨ line.speaker = "guest") then
      segLoop gen sid total rest st
    else
      match gen i with
      | .error msg => (.error msg, st)
      | .ok _ =>
        let p := segName sid i
        segLoop gen sid total rest
          ⟨st.temps ++ [p], fsWrite st.fs p, st.calls ++ [(i + 1, total)]⟩

/-- The `finally` block: delete every file recorded in `temp_files`
(each wrapped in its own `try`, with `if exists` guarding the unlink). -/
def cleanupTemps (fs temps : List String) : List String :=
  fs.filter (fun p => !(temps.contains p))

/-- Result of a `synthesize_audio` run: the returned path or raised
error, the `temp_files` the run created, the final filesystem, whether
the `temp` directory remains, and the `progress_callback` invocations. -/
structure SynthResult where
  result : Except AudioError String
  created : List String
  files : List String
  tempDir : Bool
  calls : List (Nat × Nat)
deriving Repr

/-- `synthesize_audio(script, output_filename, pause_duration,
progress_callback)` with the `generate_speech` outcomes given by `gen`
and the combine/export step's outcome by `exportRes` (on success it
writes `output_filename`). -/
def synthesize_audio (script : List Line) (output_filename sid : String)
    (gen : Nat → Except String Unit) (exportRes : Except String Unit)
    (fs0 : List String) (tempDir0 : Bool) : SynthResult :=
  if script.isEmpty then ⟨.error .emptyScript, [], fs0, tempDir0, []⟩
  else if output_filename = "" then ⟨.error .noOutputFilename, [], fs0, tempDir0, []⟩
  else
    match segLoop gen sid script.length script.enum ⟨[], fs0, []⟩ with
    | (.error msg, st) =>
      ⟨.error (.synthFailure msg), st.temps, cleanupTemps st.fs st.temps, false, st.calls⟩
    | (.ok _, st) =>
      if st.temps.isEmpty then
        ⟨.error (.synthFailure "No audio segments were generated"), st.temps,
          cleanupTemps st.fs st.temps, false, st.calls⟩
      else
        match exportRes with
        | .error msg =>
          ⟨.error (.synthFailure msg), st.temps, cleanupTemps st.fs st.temps, false, st.calls⟩
        | .ok _ =>
          ⟨.ok output_filename, st.temps,
            cleanupTemps (fsWrite st.fs output_filename) st.temps, false, st.calls⟩

/-! ## Q&A context builder (`qa_context_builder._extract_recent_dialogue`)

Timestamps are modelled as rationals.  Python `int(x)` truncates toward
zero; `round(x, 1)` rounds half away from the nearest even digit, which
coincides with floor-based rounding on the integral multiples of `8.0`
produced here. -/

/-- Python `int(q)`: truncation toward zero. -/
def pytrunc (q : ℚ) : ℤ :=
  if 0 ≤ q then ⌊q⌋ else ⌈q⌉

/-- Python `round(q, 1)` (coincides with half-to-even rounding on the
values this development applies it to, which are integers). -/
def round1 (q : ℚ) : ℚ :=
  (⌊q * 10 + 1 / 2⌋ : ℚ) / 10

/-- One entry of the `recent_dialogue` result:
`{"speaker": ..., "text": ..., "timestamp": ...}`. -/
structure TimedLine where
  speaker : String
  text : String
  timestamp : ℚ
deriving DecidableEq, Repr

/-- `_extract_recent_dialogue(script, timestamp, lookback_seconds)`. -/
def _extract_recent_dialogue (script : List Line)
    (timestamp lookback_seconds : ℚ) : List TimedLine :=
  if script.isEmpty then []
  else
    let total_exchanges : ℕ := script.length
    let estimated_total_duration : ℚ := (total_exchanges : ℚ) * 8
    let ts : ℚ :=
      if estimated_total_duration < timestamp then estimated_total_duration
      else timestamp
    let current_exchange_index : ℤ :=
      min (pytrunc (ts / 8)) ((total_exchanges : ℤ) - 1)
    let lookback_exchanges : ℤ := max (pytrunc (lookback_seconds / 8)) 1
    let start_index : ℤ := max 0 (current_exchange_index - lookback_exchanges + 1)
    let end_index : ℤ := current_exchange_index + 1
    let recent := (script.drop start_index.toNat).take (end_index - start_index).toNat
    recent.enum.map fun p =>
      ⟨p.2.speaker, p.2.text, round1 (((start_index.toNat + p.1 : ℕ) : ℚ) * 8)⟩

/-- The slice `script[max(0, i-L+1) : i+1]` with each line annotated with
the estimated timestamp `index * 8.0`, following the specification's
formula; used to compare `_extract_recent_dialogue` against the spec. -/
def specWindow (script : List Line) (w : ℚ) (i : ℤ) : List TimedLine :=
  let L : ℤ := max 1 ⌊w / 8⌋
  let lo : ℤ := max 0 (i - L + 1)
  ((script.drop lo.toNat).take (i + 1 - lo).toNat).enum.map fun p =>
    ⟨p.2.speaker, p.2.text, ((lo.toNat + p.1 : ℕ) : ℚ) * 8⟩

/-- The specification's description of `extract_recent_dialogue`:
`i = min(floor(min(t, N*8)/8), N-1)`, `L = max(1, floor(w/8))`, slice
`script[max(0, i-L+1) : i+1]` annotated with `index * 8.0`. -/
def specExtract (script : List Line) (t w : ℚ) : List TimedLine :=
  specWindow script w
    (min ⌊(min t ((script.length : ℚ) * 8)) / 8⌋ ((script.length : ℤ) - 1))

/-! ## Job status store (`podcast_storage.py`) and pipeline orchestrator
(`podcasts.py`)

The SQLite table keyed by `podcast_id` is modelled as a map from ids to
records; the podcast directory as the file-name list used above.
`now` stands for `datetime.utcnow().isoformat() + "Z"`. -/

/-- One row of the `podcasts` table. -/
structure PodcastRec where
  podcast_id : String
  document_ids : List String
  status : String
  progress_percentage : ℤ
  stage : Option String
  target_duration : Option String
  audio_url : Option String
  script_url : Option String
  duration_seconds : Option ℚ
  created_at : String
  completed_at : Option String
  failed_at : Option String
  error_message : Option String
deriving DecidableEq, Repr

/-- The podcast table. -/
def DB := String → Option PodcastRec

/-- `INSERT OR REPLACE` of a row (`save_podcast`). -/
def dbInsert (db : DB) (pid : String) (p : PodcastRec) : DB :=
  fun q => if q = pid then some p else db q

/-- `DELETE FROM podcasts WHERE podcast_id = ?` (`delete_podcast`). -/
def dbDelete (db : DB) (pid : String) : DB :=
  fun q => if q = pid then none else db q

/-- `update_podcast_status(podcast_id, status, progress_percentage,
**kwargs)` for the keyword arguments the pipeline actually passes
(`stage`, `audio_url`, `script_url`, `duration_seconds`,
`error_message`; `completed_at`/`failed_at` are never passed, so the
`not in kwargs` guards always hold).  Returns the new table and the
saved record, or the message of the `ValueError` raised when the podcast
does not exist. -/
def update_podcast_status (db : DB) (pid status : String)
    (progress : Option ℤ) (stage audio_url script_url : Option String)
    (duration_seconds : Option ℚ) (error_message : Option String)
    (now : String) : Except String (DB × PodcastRec) :=
  match db pid with
  | none => .error ("Podcast " ++ pid ++ " not found")
  | some existing =>
    let p : PodcastRec :=
      { existing with
        status := status
        progress_percentage := progress.getD existing.progress_percentage
        stage := stage.or existing.stage
        audio_url := audio_url.or existing.audio_url
        script_url := script_url.or existing.script_url
        duration_seconds := duration_seconds.or existing.duration_seconds
        error_message := error_message.or existing.error_message }
    let p2 :=
      if status = "complete" then { p with completed_at := some now }
      else if status = "failed" then { p with failed_at := some now }
      else p
    .ok (dbInsert db pid p2, p2)

/-- The audio artifact file name `f"{podcast_id}.mp3"`. -/
def audioName (pid : String) : String := pid ++ ".mp3"

/-- The script artifact file name `f"{podcast_id}_script.json"`. -/
def scriptName (pid : String) : String := pid ++ "_script.json"

/-- `cleanup_failed_podcast(podcast_id)`: remove the audio file and the
script file when present, then delete the database row. -/
def cleanup_failed_podcast (db : DB) (fs : List String) (pid : String) :
    DB × List String :=
  let fs := fs.filter (fun p => p ≠ audioName pid)
  let fs := fs.filter (fun p => p ≠ scriptName pid)
  (dbDelete db pid, fs)

/-- The database progress written by `audio_progress_callback`:
`50 + int((current / total) * 50)` (exact integer arithmetic in place of
the float division, which agrees on these small operands and is monotone
either way). -/
def callbackProgress (c t : ℕ) : ℤ := 50 + ((50 * c) / t : ℕ)

/-- Applying `audio_progress_callback` for each reported
`(current, total)` pair, in order.  Also returns the records saved, in
order.  The inner `update_podcast_status` cannot fail during a pipeline
run (the record exists throughout), so that branch leaves the table
unchanged. -/
def applyCallbacks (pid now : String) :
    DB → List (Nat × Nat) → DB × List PodcastRec
  | db, [] => (db, [])
  | db, (c, t) :: rest =>
    match update_podcast_status db pid "processing" (some (callbackProgress c t))
        (some "synthesizing_audio") none none none none now with
    | .error _ => applyCallbacks pid now db rest
    | .ok (db', rec) =>
      let r := applyCallbacks pid now db' rest
      (r.1, rec :: r.2)

/-- Result of one background pipeline run. -/
structure PipeResult where
  db : DB
  fs : List String
  tempDir : Bool
  trace : List PodcastRec
  failed : Option String

/-- The `except` handler of `_generate_podcast_pipeline`: record the
failure on the job, then run `cleanup_failed_podcast` (whose own
exceptions are swallowed; in this model cleanup always succeeds).  When
the status update itself raises, the handler propagates and cleanup is
never reached. -/
def pipelineFail (pid msg now : String) (db : DB) (fs : List String)
    (td : Bool) (trace : List PodcastRec) : PipeResult :=
  match update_podcast_status db pid "failed" (some 0) (some "failed")
      none none none (some msg) now with
  | .error _ => ⟨db, fs, td, trace, some msg⟩
  | .ok (db1, rec) =>
    let r := cleanup_failed_podcast db1 fs pid
    ⟨r.1, r.2, td, trace ++ [rec], some msg⟩

/-- `_generate_podcast_pipeline(podcast_id, document_id,
target_duration)` with the outcomes of the external calls supplied as
oracles: `scriptRes` for `generate_podcast_script`, `gen`/`exportRes`
for the synthesis stage, `durRes` for `get_audio_duration`. -/
def _generate_podcast_pipeline (pid : String)
    (scriptRes : Except String (List Line)) (sid : String)
    (gen : Nat → Except String Unit) (exportRes : Except String Unit)
    (durRes : Except String ℚ) (now : String)
    (db0 : DB) (fs0 : List String) (td0 : Bool) : PipeResult :=
  match update_podcast_status db0 pid "processing" (some 10)
      (some "generating_script") none none none none now with
  | .error msg => pipelineFail pid msg now db0 fs0 td0 []
  | .ok (db1, rec1) =>
    match scriptRes with
    | .error msg => pipelineFail pid msg now db1 fs0 td0 [rec1]
    | .ok script =>
      if ¬validate_script script then
        pipelineFail pid "Generated script failed validation" now db1 fs0 td0 [rec1]
      else
        let fs1 := fsWrite fs0 (scriptName pid)
        match update_podcast_status db1 pid "processing" (some 50)
            (some "synthesizing_audio") none
            (some ("/generated/podcasts/" ++ scriptName pid)) none none now with
        | .error msg => pipelineFail pid msg now db1 fs1 td0 [rec1]
        | .ok (db2, rec2) =>
          let sr := synthesize_audio script (audioName pid) sid gen exportRes fs1 td0
          let cb := applyCallbacks pid now db2 sr.calls
          let tr := rec1 :: rec2 :: cb.2
          match sr.result with
          | .error e => pipelineFail pid e.message now cb.1 sr.files sr.tempDir tr
          | .ok _ =>
            match durRes with
            | .error msg => pipelineFail pid msg now cb.1 sr.files sr.tempDir tr
            | .ok dur =>
              match update_podcast_status cb.1 pid "complete" (some 100)
                  (some "complete") (some ("/generated/podcasts/" ++ audioName pid))
                  none (some dur) none now with
              | .error msg => pipelineFail pid msg now cb.1 sr.files sr.tempDir tr
              | .ok (db4, rec4) =>
                ⟨db4, sr.files, sr.tempDir, tr ++ [rec4], none⟩

/-- Request body of `POST /generate`. -/
structure GenerateRequest where
  document_ids : List String
  topic : String
  duration_minutes : ℤ
deriving DecidableEq, Repr

/-- Result of the `generate_podcast` route handler: the table after
`save_podcast`, the saved record, and the arguments handed to the
scheduled background task. -/
structure GenerateOutcome where
  db : DB
  record : PodcastRec
  taskDocument : String
  taskTarget : String

/-- `generate_podcast(request)`: the handler hardcodes
`target_duration = "short"`, saves the initial record and schedules
`_generate_podcast_pipeline(podcast_id, request.document_ids[0],
target_duration)`. -/
def generate_podcast (req : GenerateRequest) (pid now : String)
    (db0 : DB) : GenerateOutcome :=
  let target_duration := "short"
  let rec0 : PodcastRec :=
    { podcast_id := pid
      document_ids := req.document_ids
      status := "processing"
      progress_percentage := 0
      stage := some "initializing"
      target_duration := some target_duration
      audio_url := none
      script_url := none
      duration_seconds := none
      created_at := now
      completed_at := none
      failed_at := none
      error_message := none }
  ⟨dbInsert db0 pid rec0, rec0, req.document_ids.headD "", target_duration⟩

/-- The full sequence of records saved for one job: the initial
`save_podcast` from the route handler followed by every record saved by
the background pipeline run. -/
def jobTrace (req : GenerateRequest) (pid : String)
    (scriptRes : Except String (List Line)) (sid : String)
    (gen : Nat → Except String Unit) (exportRes : Except String Unit)
    (durRes : Except String ℚ) (now : String)
    (db0 : DB) (fs0 : List String) (td0 : Bool) : List PodcastRec :=
  let g := generate_podcast req pid now db0
  g.record ::
    (_generate_podcast_pipeline pid scriptRes sid gen exportRes durRes now
      g.db fs0 td0).trace

/-! ## Theorems -/

/-- Claim C2: the completion wrapper retries transient (rate-limit /
connection / timeout) errors for up to 3 attempts total with the
exponential sleep schedule 1, 2, 4 seconds (base 1 s; the realized
sleeps are always a prefix of that schedule), returns the successful
result after 1 + 2 = 3 seconds of cumulative sleep when attempts 1 and 2
fail transiently and attempt 3 succeeds, raises a normalized error
carrying the last underlying message on exhaustion, and fails
immediately with no sleep on a permanent API error. -/
theorem retry_backoff_behavior :
    (∀ (outcomes : Nat → CallOutcome) (k1 k2 : ErrKind) (m1 m2 v : String),
      k1.transient = true → k2.transient = true →
      outcomes 0 = .err k1 m1 → outcomes 1 = .err k2 m2 → outcomes 2 = .ok v →
      exponential_backoff_retry outcomes = (.ok v, [1, 2]))
    ∧ (∀ (outcomes : Nat → CallOutcome) (k0 k1 k2 : ErrKind) (m0 m1 m2 : String),
      k0.transient = true → k1.transient = true → k2.transient = true →
      outcomes 0 = .err k0 m0 → outcomes 1 = .err k1 m1 → outcomes 2 = .err k2 m2 →
      exponential_backoff_retry outcomes = (.error (normMsg k2 m2), [1, 2]))
    ∧ (∀ (outcomes : Nat → CallOutcome) (k : ErrKind) (m : String),
      k.transient = false → outcomes 0 = .err k m →
      exponential_backoff_retry outcomes = (.error (normMsg k m), []))
    ∧ (∀ outcomes : Nat → CallOutcome,
      (exponential_backoff_retry outcomes).2 <+: [1, 2, 4])
    ∧ (∀ outcomes outcomes' : Nat → CallOutcome,
      (∀ i < 3, outcomes i = outcomes' i) →
      exponential_backoff_retry outcomes = exponential_backoff_retry outcomes') := by
  refine ⟨?_, ?_, ?_, ?_, ?_⟩
  · intro outcomes k1 k2 m1 m2 v h1 h2 o0 o1 o2
    simp [exponential_backoff_retry, ebrLoop, o0, o1, o2, h1, h2]
  · intro outcomes k0 k1 k2 m0 m1 m2 h0 h1 h2 o0 o1 o2
    simp [exponential_backoff_retry, ebrLoop, o0, o1, o2, h0, h1, h2]
  · intro outcomes k m hk o0
    simp [exponential_backoff_retry, ebrLoop, o0, hk]
  · intro outcomes
    simp only [exponential_backoff_retry, ebrLoop]
    rcases outcomes 0 with v | ⟨k0, m0⟩
    · simp [List.prefix_iff_eq_take]
    · by_cases h0 : k0.transient
      · simp only [h0, if_true, reduceIte]
        rcases outcomes 1 with v | ⟨k1, m1⟩
        · simp
        · by_cases h1 : k1.transient
          · simp only [h1, if_true, reduceIte]
            rcases outcomes 2 with v | ⟨k2, m2⟩
            · simp
            · by_cases h2 : k2.transient <;> simp [h2]
          · simp [h1]
      · simp [h0]
  · intro outcomes outcomes' h
    have h0 := h 0 (by norm_num)
    have h1 := h 1 (by norm_num)
    have h2 := h 2 (by norm_num)
    simp [exponential_backoff_retry, ebrLoop, h0, h1, h2]

/-- Witness for `retry_backoff_behavior` at a concrete outcome sequence:
connection errors on the first two attempts, success on the third. -/
theorem retry_backoff_behavior_witness :
    exponential_backoff_retry
      (fun n => if n = 0 then .err .connection "t1"
        else if n = 1 then .err .timeout "t2" else .ok "done")
      = (.ok "done", [1, 2]) :=
  retry_backoff_behavior.1
    (fun n => if n = 0 then .err .connection "t1"
      else if n = 1 then .err .timeout "t2" else .ok "done")
    .connection .timeout "t1" "t2" "done" rfl rfl rfl rfl rfl

/-- Lowercasing is the identity on `"short"`. -/
theorem strLower_short : strLower "short" = "short" := rfl

/-- Lowercasing is the identity on `"medium"`. -/
theorem strLower_medium : strLower "medium" = "medium" := rfl

/-- Lowercasing is the identity on `"long"`. -/
theorem strLower_long : strLower "long" = "long" := rfl

/-- The four-line scenario script of claim C6. -/
def scenarioScript : List Line :=
  [⟨"host", "Welcome!"⟩, ⟨"guest", "Thanks!"⟩,
   ⟨"host", "Let's start"⟩, ⟨"guest", "Sure"⟩]

/-- Counterexample to claim C6: `validate_script` on the scenario script
returns `false`, not `true` — the lines "Welcome!" (8 chars),
"Thanks!" (7 chars) and "Sure" (4 chars) are under 10 characters, which
the stated rule itself forbids. -/
theorem validate_script_scenario_counterexample :
    ¬ (validate_script scenarioScript = true) := by decide

/-- Claim C6 (amended): `validate_script` applied to the scenario script
returns `false` under the stated validation rule, because the script
contains lines under 10 characters ("Welcome!", "Thanks!" and "Sure"),
even though it has 4 lines and both speakers are present. -/
theorem validate_script_scenario :
    validate_script scenarioScript = false
    ∧ scenarioScript.length = 4
    ∧ (scenarioScript.any fun e => e.speaker = "host") = true
    ∧ (scenarioScript.any fun e => e.speaker = "guest") = true
    ∧ (scenarioScript.any fun e => e.text.length < 10) = true := by decide

/-- Claim C7: for each valid target length, chunk selection picks
exactly `min(desired, available)` chunks, with desired `3`/`6`/`12` for
`short`/`medium`/`long`, and never more than are available. -/
theorem chunk_selection_min (chunks : List String) (h : chunks ≠ []) :
    (selectChunks chunks "short").length = min 3 chunks.length
    ∧ (selectChunks chunks "medium").length = min 6 chunks.length
    ∧ (selectChunks chunks "long").length = min 12 chunks.length
    ∧ ∀ tl, (selectChunks chunks tl).length ≤ chunks.length := by
  refine ⟨?_, ?_, ?_, fun tl => ?_⟩
  · simp [selectChunks, _determine_chunk_count, strLower_short]
  · simp [selectChunks, _determine_chunk_count, strLower_medium]
  · simp [selectChunks, _determine_chunk_count, strLower_long]
  · simp [selectChunks]

/-- Witness for `chunk_selection_min` on a concrete five-chunk list. -/
theorem chunk_selection_min_witness :
    (selectChunks ["a", "b", "c", "d", "e"] "short").length
        = min 3 (["a", "b", "c", "d", "e"] : List String).length
    ∧ (selectChunks ["a", "b", "c", "d", "e"] "medium").length
        = min 6 (["a", "b", "c", "d", "e"] : List String).length
    ∧ (selectChunks ["a", "b", "c", "d", "e"] "long").length
        = min 12 (["a", "b", "c", "d", "e"] : List String).length
    ∧ ∀ tl, (selectChunks ["a", "b", "c", "d", "e"] tl).length
        ≤ (["a", "b", "c", "d", "e"] : List String).length :=
  chunk_selection_min ["a", "b", "c", "d", "e"] (by decide)

/-- Claim C9: every accepted generation request starts the background
pipeline with target length `"short"` regardless of the requested
`duration_minutes`, records `"short"` as the job's target duration, and
consequently the chunk count used for script generation is always
`min 3 available` and the target duration 3 minutes. -/
theorem generate_target_always_short :
    ∀ (req : GenerateRequest) (pid now : String) (db0 : DB),
      (generate_podcast req pid now db0).taskTarget = "short"
      ∧ (generate_podcast req pid now db0).record.target_duration = some "short"
      ∧ (∀ chunks : List String,
          (selectChunks chunks (generate_podcast req pid now db0).taskTarget).length
            = min 3 chunks.length)
      ∧ _get_duration_minutes (generate_podcast req pid now db0).taskTarget = 3 := by
  intro req pid now db0
  refine ⟨rfl, rfl, fun chunks => ?_, ?_⟩
  · show (selectChunks chunks "short").length = min 3 chunks.length
    simp [selectChunks, _determine_chunk_count, strLower_short]
  · show _get_duration_minutes "short" = 3
    simp [_get_duration_minutes, strLower_short]

/-- A prefix test for a longer pattern entails the test for the
pattern's own prefix. -/
theorem isPrefixL_of_append (n m : List Char) :
    ∀ l, isPrefixL (n ++ m) l = true → isPrefixL n l = true := by
  induction n with
  | nil => intro l _; rfl
  | cons a as ih =>
    intro l h
    cases l with
    | nil => simp [isPrefixL] at h
    | cons b bs =>
      simp only [List.cons_append, isPrefixL, Bool.and_eq_true] at h ⊢
      exact ⟨h.1, ih bs h.2⟩

/-- A substring test for `n ++ m` entails the substring test for `n`. -/
theorem containsL_of_append (n m : List Char) :
    ∀ l, containsL (n ++ m) l = true → containsL n l = true := by
  intro l
  induction l with
  | nil =>
    simp only [containsL, List.isEmpty_iff, List.append_eq_nil]
    exact fun h => by simp [h.1]
  | cons h t ih =>
    simp only [containsL, Bool.or_eq_true]
    rintro (hp | hc)
    · exact Or.inl (isPrefixL_of_append n m _ hp)
    · exact Or.inr (ih hc)

/-- Claim C10: the host-alias test runs before the guest-alias test, so
any label containing `host` — such as `Host B` — is classified as the
host; the `host b` guest alias is unreachable (removing it never changes
the classification); and a line whose label matches neither alias set,
or whose text after the first colon is empty, is dropped. -/
theorem parse_dialogue_host_alias_precedence :
    (∀ raw : List Char, containsL "host".data raw = true →
      classifySpeaker raw = some "host")
    ∧ parseLine "Host B: hello everyone".data = some ⟨"host", "hello everyone"⟩
    ∧ (∀ raw : List Char, classifySpeaker raw = classifySpeakerNoHostB raw)
    ∧ (∀ l pre post : List Char,
        splitColon (stripL l) = (pre, some post) →
        classifySpeaker (lowerL (stripL pre)) = none ∨ stripL post = [] →
        parseLine l = none) := by
  refine ⟨?_, by decide, ?_, ?_⟩
  · intro raw h
    simp [classifySpeaker, h]
  · intro raw
    unfold classifySpeaker classifySpeakerNoHostB
    by_cases h1 : (containsL "host".data raw || containsL "alex".data raw
        || containsL "host a".data raw) = true
    · simp [h1]
    · have hhost : containsL "host".data raw = false := by
        rcases Bool.eq_false_or_eq_true (containsL "host".data raw) with h | h
        · exact absurd (by simp [h]) h1
        · exact h
      have hhb : containsL "host b".data raw = false := by
        rcases Bool.eq_false_or_eq_true (containsL "host b".data raw) with h | h
        · have hsub : containsL ("host".data ++ " b".data) raw = true := by
            have hd : "host b".data = "host".data ++ " b".data := by decide
            rw [← hd]; exact h
          rw [containsL_of_append _ _ _ hsub] at hhost
          exact absurd hhost (by simp)
        · exact h
      simp [h1, hhb]
  · intro l pre post hsplit hdrop
    unfold parseLine
    by_cases hemp : (stripL l).isEmpty
    · simp [hemp]
    · simp only [hemp, Bool.false_eq_true, if_false, hsplit]
      rcases hdrop with hcl | htx
      · simp [hcl]
      · cases hc : classifySpeaker (lowerL (stripL pre)) with
        | none => simp
        | some sp => simp [htx]

/-- Witness for `parse_dialogue_host_alias_precedence`: the label
`host b` is classified as host, and a line with an unknown label is
dropped. -/
theorem parse_dialogue_host_alias_precedence_witness :
    classifySpeaker "host b".data = some "host"
    ∧ parseLine "Narrator: hello".data = none :=
  ⟨parse_dialogue_host_alias_precedence.1 "host b".data (by decide),
   parse_dialogue_host_alias_precedence.2.2.2 "Narrator: hello".data
     "Narrator".data " hello".data (by decide) (Or.inl (by decide))⟩

/-- Python truncation agrees with floor on non-negative rationals. -/
theorem pytrunc_of_nonneg (q : ℚ) (h : 0 ≤ q) : pytrunc q = ⌊q⌋ := by
  simp [pytrunc, h]

/-- Rounding to one decimal is the identity on natural multiples of 8. -/
theorem round1_nat_mul_eight (k : ℕ) : round1 ((k : ℚ) * 8) = (k : ℚ) * 8 := by
  unfold round1
  have h : ((k : ℚ) * 8) * 10 + 1 / 2 = ((80 * k : ℤ) : ℚ) + 1 / 2 := by
    push_cast; ring
  rw [h, Int.floor_int_add]
  have h12 : ⌊(1 / 2 : ℚ)⌋ = 0 := by norm_num
  rw [h12]
  push_cast
  ring

/-- Claim C4: for non-negative `t` and `w`, `_extract_recent_dialogue`
returns the slice `script[max(0, i-L+1) : i+1]` with
`i = min(floor(min(t, N*8)/8), N-1)` and `L = max(1, floor(w/8))`, each
line annotated with timestamp `index * 8.0`; for `t ≥ N*8` the window
equals the one at `t = N*8 - ε` (any `0 < ε ≤ 8`); the empty script
yields the empty sequence for any `t`, `w`. -/
theorem extract_recent_dialogue_spec :
    (∀ (script : List Line) (t w : ℚ), 0 ≤ t → 0 ≤ w →
      _extract_recent_dialogue script t w = specExtract script t w)
    ∧ (∀ (script : List Line) (t w ε : ℚ), script ≠ [] →
        (script.length : ℚ) * 8 ≤ t → 0 < ε → ε ≤ 8 → 0 ≤ w →
        _extract_recent_dialogue script t w
          = _extract_recent_dialogue script ((script.length : ℚ) * 8 - ε) w)
    ∧ ∀ t w : ℚ, _extract_recent_dialogue [] t w = [] := by
  have hmain : ∀ (script : List Line) (t w : ℚ), 0 ≤ t → 0 ≤ w →
      _extract_recent_dialogue script t w = specExtract script t w := by
    intro script t w ht hw
    rcases eq_or_ne script [] with rfl | hne
    · simp [_extract_recent_dialogue, specExtract, specWindow]
    · have hs : script.isEmpty = false := by simp [hne]
      unfold _extract_recent_dialogue specExtract specWindow
      simp only [hs, Bool.false_eq_true, if_false]
      have hts : (if (script.length : ℚ) * 8 < t then (script.length : ℚ) * 8 else t)
          = min t ((script.length : ℚ) * 8) := by
        rcases le_or_lt t ((script.length : ℚ) * 8) with h | h
        · rw [min_eq_left h, if_neg (not_lt.mpr h)]
        · rw [min_eq_right h.le, if_pos h]
      have hmn : 0 ≤ min t ((script.length : ℚ) * 8) := le_min ht (by positivity)
      have h2 : pytrunc (min t ((script.length : ℚ) * 8) / 8)
          = ⌊min t ((script.length : ℚ) * 8) / 8⌋ :=
        pytrunc_of_nonneg _ (div_nonneg hmn (by norm_num))
      have h3 : pytrunc (w / 8) = ⌊w / 8⌋ :=
        pytrunc_of_nonneg _ (div_nonneg hw (by norm_num))
      rw [hts, h2, h3, max_comm ⌊w / 8⌋ 1]
      refine List.map_congr_left ?_
      intro a _
      rw [round1_nat_mul_eight]
  refine ⟨hmain, ?_, fun t w => by simp [_extract_recent_dialogue]⟩
  intro script t w ε hne hts hε1 hε2 hw
  have hN1 : 1 ≤ script.length := List.length_pos.mpr hne
  have hN1q : (1 : ℚ) ≤ (script.length : ℚ) := by exact_mod_cast hN1
  have h8N : (8 : ℚ) ≤ (script.length : ℚ) * 8 := by nlinarith
  have ht0 : 0 ≤ t := le_trans (by positivity) hts
  have ht'0 : 0 ≤ (script.length : ℚ) * 8 - ε := by linarith
  rw [hmain script t w ht0 hw, hmain script _ w ht'0 hw]
  unfold specExtract
  have e1 : min t ((script.length : ℚ) * 8) = (script.length : ℚ) * 8 :=
    min_eq_right hts
  have e2 : min ((script.length : ℚ) * 8 - ε) ((script.length : ℚ) * 8)
      = (script.length : ℚ) * 8 - ε := min_eq_left (by linarith)
  have f1 : ⌊(script.length : ℚ) * 8 / 8⌋ = (script.length : ℤ) := by
    rw [mul_div_assoc]
    norm_num
  have f2 : ⌊((script.length : ℚ) * 8 - ε) / 8⌋ = (script.length : ℤ) - 1 := by
    rw [Int.floor_eq_iff]
    constructor
    · rw [le_div_iff (by norm_num : (0 : ℚ) < 8)]
      push_cast
      linarith
    · rw [div_lt_iff (by norm_num : (0 : ℚ) < 8)]
      push_cast
      linarith
  have hi : min ⌊min t ((script.length : ℚ) * 8) / 8⌋ ((script.length : ℤ) - 1)
      = min ⌊min ((script.length : ℚ) * 8 - ε) ((script.length : ℚ) * 8) / 8⌋
          ((script.length : ℤ) - 1) := by
    rw [e1, e2, f1, f2]
    omega
  exact congrArg (specWindow script w) hi

/-- Witness for `extract_recent_dialogue_spec` on a concrete two-line
script: formula agreement at `t = 9`, overshoot agreement between
`t = 100` and `t = 16 - 4`, and the empty-script case. -/
theorem extract_recent_dialogue_spec_witness :
    (_extract_recent_dialogue [⟨"host", "a"⟩, ⟨"guest", "b"⟩] 9 60
      = specExtract [⟨"host", "a"⟩, ⟨"guest", "b"⟩] 9 60)
    ∧ (_extract_recent_dialogue [⟨"host", "a"⟩, ⟨"guest", "b"⟩] 100 60
      = _extract_recent_dialogue [⟨"host", "a"⟩, ⟨"guest", "b"⟩]
          (([⟨"host", "a"⟩, ⟨"guest", "b"⟩] : List Line).length * 8 - 4) 60)
    ∧ _extract_recent_dialogue [] 5 60 = [] :=
  ⟨extract_recent_dialogue_spec.1 [⟨"host", "a"⟩, ⟨"guest", "b"⟩] 9 60
      (by norm_num) (by norm_num),
   extract_recent_dialogue_spec.2.1 [⟨"host", "a"⟩, ⟨"guest", "b"⟩] 100 60 4
      (by decide) (by norm_num) (by norm_num) (by norm_num) (by norm_num),
   extract_recent_dialogue_spec.2.2 5 60⟩

/-- The callback invocations produced by the synthesis loop form a
subsequence of the per-line invocations `(index + 1, total)` of the
enumerated script. -/
theorem segLoop_calls_sublist (gen : Nat → Except String Unit) (sid : String)
    (total : Nat) :
    ∀ (l : List (Nat × Line)) (st : LoopSt),
      ((segLoop gen sid total l st).2.calls).Sublist
        (st.calls ++ l.map fun x => (x.1 + 1, total)) := by
  intro l
  induction l with
  | nil => intro st; simp [segLoop]
  | cons x rest ih =>
    intro st
    obtain ⟨i, line⟩ := x
    rw [segLoop]
    by_cases h1 : line.speaker = "" ∨ line.text = ""
    · rw [if_pos h1]
      refine (ih st).trans ?_
      simp only [List.map_cons]
      exact ((rest.map fun x => (x.1 + 1, total)).sublist_cons_self
        ((i + 1, total))).append_left st.calls
    · rw [if_neg h1]
      by_cases h2 : ¬(line.speaker = "host" ∨ line.speaker = "guest")
      · rw [if_pos h2]
        refine (ih st).trans ?_
        simp only [List.map_cons]
        exact ((rest.map fun x => (x.1 + 1, total)).sublist_cons_self
          ((i + 1, total))).append_left st.calls
      · rw [if_neg h2]
        cases hg : gen i with
        | error msg => exact List.sublist_append_left _ _
        | ok u =>
          refine (ih _).trans ?_
          simp [List.append_assoc]

/-- When every line is valid and every synthesis call succeeds, the
loop succeeds and appends one temp file, one filesystem write and one
callback invocation per line, in index order. -/
theorem segLoop_all_ok (gen : Nat → Except String Unit) (sid : String)
    (total : Nat) (hgen : ∀ i, gen i = .ok ()) :
    ∀ (l : List (Nat × Line)) (st : LoopSt),
      (∀ x ∈ l, lineValid x.2) →
      segLoop gen sid total l st
        = (.ok (), ⟨st.temps ++ l.map fun x => segName sid x.1,
            l.foldl (fun fs x => fsWrite fs (segName sid x.1)) st.fs,
            st.calls ++ l.map fun x => (x.1 + 1, total)⟩) := by
  intro l
  induction l with
  | nil => intro st _; simp [segLoop]
  | cons x rest ih =>
    intro st hv
    obtain ⟨i, line⟩ := x
    have hval : lineValid line := hv (i, line) (List.mem_cons_self _ _)
    rw [segLoop, if_neg hval.1, if_neg (not_not.mpr hval.2), hgen i]
    rw [ih _ (fun y hy => hv y (List.mem_cons_of_mem _ hy))]
    simp [List.append_assoc]

/-- When every line is skipped, the loop succeeds without side effects. -/
theorem segLoop_all_skip (gen : Nat → Except String Unit) (sid : String)
    (total : Nat) :
    ∀ (l : List (Nat × Line)) (st : LoopSt),
      (∀ x ∈ l, ¬lineValid x.2) →
      segLoop gen sid total l st = (.ok (), st) := by
  intro l
  induction l with
  | nil => intro st _; simp [segLoop]
  | cons x rest ih =>
    intro st hv
    obtain ⟨i, line⟩ := x
    have hinv : ¬lineValid line := hv (i, line) (List.mem_cons_self _ _)
    have hrest : ∀ x ∈ rest, ¬lineValid x.2 :=
      fun y hy => hv y (List.mem_cons_of_mem _ hy)
    rw [segLoop]
    by_cases h1 : line.speaker = "" ∨ line.text = ""
    · rw [if_pos h1]; exact ih st hrest
    · have h2 : ¬(line.speaker = "host" ∨ line.speaker = "guest") :=
        fun hsp => hinv ⟨h1, hsp⟩
      rw [if_neg h1, if_pos h2]
      exact ih st hrest

/-- A file recorded in `temp_files` never survives the `finally`
cleanup. -/
theorem not_mem_cleanupTemps (fs temps : List String) (p : String)
    (hp : p ∈ temps) : p ∉ cleanupTemps fs temps := by
  simp only [cleanupTemps, List.mem_filter, Bool.not_eq_true']
  rintro ⟨-, hc⟩
  exact absurd hp (by simpa using hc)

/-- The callbacks of a synthesis run are those of its segment loop
(every branch after the loop returns the loop's call list). -/
theorem synthesize_audio_calls_eq (script : List Line) (fn sid : String)
    (gen : Nat → Except String Unit) (exportRes : Except String Unit)
    (fs0 : List String) (td0 : Bool) (h1 : script ≠ []) (h2 : fn ≠ "") :
    (synthesize_audio script fn sid gen exportRes fs0 td0).calls
      = (segLoop gen sid script.length script.enum ⟨[], fs0, []⟩).2.calls := by
  rw [synthesize_audio, if_neg (by simp [List.isEmpty_iff, h1]), if_neg h2]
  rcases hseg : segLoop gen sid script.length script.enum ⟨[], fs0, []⟩
    with ⟨res, st⟩
  cases res with
  | error msg => rfl
  | ok u =>
    dsimp only
    by_cases h3 : st.temps.isEmpty
    · rw [if_pos h3]
    · rw [if_neg h3]
      cases exportRes with
      | error msg => rfl
      | ok u2 => rfl

/-- Mapping a per-index function over an enumeration is mapping it over
the index range. -/
theorem enum_index_map (script : List Line) (total : Nat) :
    (script.enum.map fun x => (x.1 + 1, total))
      = (List.range script.length).map fun i => (i + 1, total) := by
  have hfe : (fun x : Nat × Line => (x.1 + 1, total))
      = (fun i : Nat => (i + 1, total)) ∘ Prod.fst := rfl
  rw [hfe, ← List.map_map, List.enum_map_fst]

/-- The callback invocations of any synthesis run form a subsequence of
the full per-line invocation list `(1, n), ..., (n, n)`. -/
theorem synth_calls_sublist (script : List Line) (fn sid : String)
    (gen : Nat → Except String Unit) (exportRes : Except String Unit)
    (fs0 : List String) (td0 : Bool) :
    ((synthesize_audio script fn sid gen exportRes fs0 td0).calls).Sublist
      ((List.range script.length).map fun i => (i + 1, script.length)) := by
  by_cases h1 : script = []
  · subst h1
    simp [synthesize_audio]
  · by_cases h2 : fn = ""
    · rw [synthesize_audio, if_neg (by simp [List.isEmpty_iff, h1]), if_pos h2]
      exact List.nil_sublist _
    · rw [synthesize_audio_calls_eq script fn sid gen exportRes fs0 td0 h1 h2,
        ← enum_index_map script script.length]
      simpa using segLoop_calls_sublist gen sid script.length script.enum
        ⟨[], fs0, []⟩

/-- Counterexample to claim C5: on a two-line script whose second line
has an unknown speaker, the progress callback fires only once — for the
first line — not once per script line. -/
theorem audio_progress_skip_counterexample :
    (synthesize_audio [⟨"host", "hi"⟩, ⟨"narrator", "x"⟩] "out.mp3" "s"
        (fun _ => .ok ()) (.ok ()) [] false).calls = [(1, 2)]
    ∧ ([⟨"host", "hi"⟩, ⟨"narrator", "x"⟩] : List Line).length = 2 := by
  constructor
  · decide
  · rfl

/-- Claim C5 (amended): the synthesis progress callback is invoked
exactly once per non-skipped line; when every line has a known speaker
and non-empty text and every synthesis call succeeds, it is invoked
exactly once per script line, with first argument strictly increasing
from 1 to the number of lines and second argument equal to that total;
in general (lines may be skipped) the invocations are a subsequence of
those, so the first arguments are still strictly increasing and the
second argument is always the total line count. -/
theorem audio_progress_callback_per_line :
    (∀ (script : List Line) (fn sid : String) (gen : Nat → Except String Unit)
        (exportRes : Except String Unit) (fs0 : List String) (td0 : Bool),
      script ≠ [] → fn ≠ "" → (∀ l ∈ script, lineValid l) →
      (∀ i, gen i = .ok ()) →
      (synthesize_audio script fn sid gen exportRes fs0 td0).calls
        = (List.range script.length).map fun i => (i + 1, script.length))
    ∧ (∀ (script : List Line) (fn sid : String) (gen : Nat → Except String Unit)
        (exportRes : Except String Unit) (fs0 : List String) (td0 : Bool),
      ((synthesize_audio script fn sid gen exportRes fs0 td0).calls).Sublist
        ((List.range script.length).map fun i => (i + 1, script.length))) := by
  constructor
  · intro script fn sid gen exportRes fs0 td0 hne hfn hv hgen
    have hvx : ∀ x ∈ script.enum, lineValid x.2 := by
      rw [List.forall_mem_enum]
      intro i hi
      exact hv _ (List.getElem_mem hi)
    rw [synthesize_audio_calls_eq script fn sid gen exportRes fs0 td0 hne hfn,
      segLoop_all_ok gen sid script.length hgen script.enum ⟨[], fs0, []⟩ hvx]
    simpa using enum_index_map script script.length
  · intro script fn sid gen exportRes fs0 td0
    exact synth_calls_sublist script fn sid gen exportRes fs0 td0

/-- Witness for `audio_progress_callback_per_line` on a concrete
two-line valid script: the callback fires exactly twice, as (1,2) then
(2,2). -/
theorem audio_progress_callback_per_line_witness :
    (synthesize_audio [⟨"host", "hello"⟩, ⟨"guest", "hey"⟩] "out.mp3" "s"
        (fun _ => .ok ()) (.ok ()) [] false).calls
      = (List.range 2).map (fun i => (i + 1, 2)) :=
  audio_progress_callback_per_line.1 [⟨"host", "hello"⟩, ⟨"guest", "hey"⟩]
    "out.mp3" "s" (fun _ => .ok ()) (.ok ()) [] false
    (by decide) (by decide) (by decide) (fun i => rfl)

/-- Claim C8: `synthesize_audio` raises the empty-script error when the
script has no lines and the "No audio segments were generated" failure
when no segment could be synthesized (every line skipped); and on every
exit path each temporary per-line segment file it created is deleted and
the temp directory (which stays empty) is removed. -/
theorem synthesize_audio_failure_and_cleanup :
    (∀ (fn sid : String) (gen : Nat → Except String Unit)
        (exportRes : Except String Unit) (fs0 : List String) (td0 : Bool),
      (synthesize_audio [] fn sid gen exportRes fs0 td0).result
        = .error .emptyScript)
    ∧ (∀ (script : List Line) (fn sid : String) (gen : Nat → Except String Unit)
        (exportRes : Except String Unit) (fs0 : List String) (td0 : Bool),
      script ≠ [] → fn ≠ "" → (∀ l ∈ script, ¬lineValid l) →
      (synthesize_audio script fn sid gen exportRes fs0 td0).result
        = .error (.synthFailure "No audio segments were generated"))
    ∧ (∀ (script : List Line) (fn sid : String) (gen : Nat → Except String Unit)
        (exportRes : Except String Unit) (fs0 : List String) (td0 : Bool),
      ∀ p ∈ (synthesize_audio script fn sid gen exportRes fs0 td0).created,
        p ∉ (synthesize_audio script fn sid gen exportRes fs0 td0).files)
    ∧ (∀ (script : List Line) (fn sid : String) (gen : Nat → Except String Unit)
        (exportRes : Except String Unit) (fs0 : List String) (td0 : Bool),
      script ≠ [] → fn ≠ "" →
      (synthesize_audio script fn sid gen exportRes fs0 td0).tempDir = false) := by
  refine ⟨?_, ?_, ?_, ?_⟩
  · intro fn sid gen exportRes fs0 td0
    rfl
  · intro script fn sid gen exportRes fs0 td0 h1 h2 hinv
    have hinvx : ∀ x ∈ script.enum, ¬lineValid x.2 := by
      rw [List.forall_mem_enum]
      intro i hi
      exact hinv _ (List.getElem_mem hi)
    rw [synthesize_audio, if_neg (by simp [List.isEmpty_iff, h1]), if_neg h2,
      segLoop_all_skip gen sid script.length script.enum ⟨[], fs0, []⟩ hinvx]
    rfl
  · intro script fn sid gen exportRes fs0 td0
    rw [synthesize_audio]
    by_cases h1 : script.isEmpty
    · rw [if_pos h1]
      intro p hp
      simp at hp
    · rw [if_neg h1]
      by_cases h2 : fn = ""
      · rw [if_pos h2]
        intro p hp
        simp at hp
      · rw [if_neg h2]
        rcases hseg : segLoop gen sid script.length script.enum ⟨[], fs0, []⟩
          with ⟨res, st⟩
        cases res with
        | error msg => exact fun p hp => not_mem_cleanupTemps _ _ p hp
        | ok u =>
          dsimp only
          by_cases h3 : st.temps.isEmpty
          · rw [if_pos h3]
            exact fun p hp => not_mem_cleanupTemps _ _ p hp
          · rw [if_neg h3]
            cases exportRes with
            | error msg => exact fun p hp => not_mem_cleanupTemps _ _ p hp
            | ok u2 => exact fun p hp => not_mem_cleanupTemps _ _ p hp
  · intro script fn sid gen exportRes fs0 td0 h1 h2
    rw [synthesize_audio, if_neg (by simp [List.isEmpty_iff, h1]), if_neg h2]
    rcases hseg : segLoop gen sid script.length script.enum ⟨[], fs0, []⟩
      with ⟨res, st⟩
    cases res with
    | error msg => rfl
    | ok u =>
      dsimp only
      by_cases h3 : st.temps.isEmpty
      · rw [if_pos h3]
      · rw [if_neg h3]
        cases exportRes with
        | error msg => rfl
        | ok u2 => rfl

/-- Witness for `synthesize_audio_failure_and_cleanup`: a one-line
script with an unknown speaker yields the no-segments failure and leaves
no temp directory. -/
theorem synthesize_audio_failure_and_cleanup_witness :
    (synthesize_audio [] "o.mp3" "s" (fun _ => .ok ()) (.ok ()) [] false).result
      = .error .emptyScript
    ∧ (synthesize_audio [⟨"narrator", "hello"⟩] "o.mp3" "s" (fun _ => .ok ())
        (.ok ()) [] false).result
      = .error (.synthFailure "No audio segments were generated")
    ∧ (synthesize_audio [⟨"narrator", "hello"⟩] "o.mp3" "s" (fun _ => .ok ())
        (.ok ()) [] false).tempDir = false :=
  ⟨synthesize_audio_failure_and_cleanup.1 "o.mp3" "s" (fun _ => .ok ())
      (.ok ()) [] false,
   synthesize_audio_failure_and_cleanup.2.1 [⟨"narrator", "hello"⟩] "o.mp3" "s"
      (fun _ => .ok ()) (.ok ()) [] false (by decide) (by decide) (by decide),
   synthesize_audio_failure_and_cleanup.2.2.2 [⟨"narrator", "hello"⟩] "o.mp3" "s"
      (fun _ => .ok ()) (.ok ()) [] false (by decide) (by decide)⟩

/-- When the record exists, a status update succeeds. -/
theorem update_isOk (db : DB) (pid status : String) (progress : Option ℤ)
    (stage audio_url script_url : Option String) (duration_seconds : Option ℚ)
    (error_message : Option String) (now : String) (p0 : PodcastRec)
    (h : db pid = some p0) :
    ∃ db' rec, update_podcast_status db pid status progress stage audio_url
      script_url duration_seconds error_message now = .ok (db', rec) := by
  unfold update_podcast_status
  rw [h]
  exact ⟨_, _, rfl⟩

/-- Field content of a successful status update with explicit progress:
the saved record carries the new status and progress, every passed
keyword field, and the failure timestamp when the status is `failed`;
the updated table maps the id to the saved record and changes no other
row. -/
theorem update_fields (db : DB) (pid status : String) (n : ℤ)
    (stage audio_url script_url : Option String) (duration_seconds : Option ℚ)
    (error_message : Option String) (now : String) (db' : DB)
    (rec : PodcastRec)
    (h : update_podcast_status db pid status (some n) stage audio_url
      script_url duration_seconds error_message now = .ok (db', rec)) :
    rec.status = status ∧ rec.progress_percentage = n
    ∧ db' pid = some rec ∧ (∀ q, q ≠ pid → db' q = db q)
    ∧ (∀ s, stage = some s → rec.stage = some s)
    ∧ (∀ m, error_message = some m → rec.error_message = some m)
    ∧ (status = "failed" → rec.failed_at = some now) := by
  unfold update_podcast_status at h
  cases hdb : db pid with
  | none =>
    rw [hdb] at h
    exact absurd h (by simp)
  | some p0 =>
    rw [hdb] at h
    dsimp only at h
    rw [Except.ok.injEq, Prod.mk.injEq] at h
    obtain ⟨hdb', hrec⟩ := h
    subst hdb'
    subst hrec
    refine ⟨?_, ?_, by simp [dbInsert], fun q hq => by simp [dbInsert, hq], ?_, ?_, ?_⟩
    · split_ifs <;> rfl
    · split_ifs <;> rfl
    · intro s hs
      subst hs
      split_ifs <;> rfl
    · intro m hm
      subst hm
      split_ifs <;> rfl
    · intro hst
      subst hst
      rw [if_neg (by decide), if_pos rfl]

/-- Applying the progress callbacks keeps the job's row present and
saves one `processing` record per reported pair, with the mapped
progress value. -/
theorem applyCallbacks_spec (pid now : String) :
    ∀ (cs : List (Nat × Nat)) (db : DB) (p0 : PodcastRec),
      db pid = some p0 →
      (∃ p1, (applyCallbacks pid now db cs).1 pid = some p1)
      ∧ ((applyCallbacks pid now db cs).2.map
            fun rec => (rec.status, rec.progress_percentage))
          = cs.map fun c => ("processing", callbackProgress c.1 c.2) := by
  intro cs
  induction cs with
  | nil => intro db p0 h; exact ⟨⟨p0, h⟩, rfl⟩
  | cons c rest ih =>
    intro db p0 h
    obtain ⟨i, t⟩ := c
    obtain ⟨db', rec, hu⟩ := update_isOk db pid "processing"
      (some (callbackProgress i t)) (some "synthesizing_audio")
      none none none none now p0 h
    have hf := update_fields db pid "processing" (callbackProgress i t)
      (some "synthesizing_audio") none none none none now db' rec hu
    rw [applyCallbacks, hu]
    obtain ⟨hpres, htr⟩ := ih db' rec hf.2.2.1
    refine ⟨hpres, ?_⟩
    simp only [List.map_cons, htr, hf.1, hf.2.1]

/-- What the pipeline's failure handler does when the job row exists:
record the failure (status/stage `failed`, the caught message, the
failure timestamp), then delete the artifacts and the row. -/
theorem pipelineFail_props (pid msg now : String) (db : DB)
    (fs : List String) (td : Bool) (trace : List PodcastRec)
    (p0 : PodcastRec) (h : db pid = some p0) :
    (pipelineFail pid msg now db fs td trace).failed = some msg
    ∧ (∃ rec ∈ (pipelineFail pid msg now db fs td trace).trace,
        rec.status = "failed" ∧ rec.stage = some "failed"
        ∧ rec.error_message = some msg ∧ rec.failed_at = some now)
    ∧ (pipelineFail pid msg now db fs td trace).db pid = none
    ∧ audioName pid ∉ (pipelineFail pid msg now db fs td trace).fs
    ∧ scriptName pid ∉ (pipelineFail pid msg now db fs td trace).fs
    ∧ ((pipelineFail pid msg now db fs td trace).trace.map
          fun rec => (rec.status, rec.progress_percentage))
        = (trace.map fun rec => (rec.status, rec.progress_percentage))
          ++ [("failed", 0)] := by
  obtain ⟨db', rec, hu⟩ := update_isOk db pid "failed" (some 0) (some "failed")
    none none none (some msg) now p0 h
  have hf := update_fields db pid "failed" 0 (some "failed") none none none
    (some msg) now db' rec hu
  rw [pipelineFail, hu]
  dsimp only
  refine ⟨rfl, ⟨rec, ?_, hf.1, hf.2.2.2.2.1 _ rfl, hf.2.2.2.2.2.1 _ rfl,
    hf.2.2.2.2.2.2 rfl⟩, ?_, ?_, ?_, ?_⟩
  · simp
  · simp [cleanup_failed_podcast, dbDelete]
  · simp [cleanup_failed_podcast]
  · simp [cleanup_failed_podcast, List.mem_filter]
  · simp [hf.1, hf.2.1]

/-- Exhaustive description of one pipeline run on an existing job row:
either some stage failed — then the run records the failure, deletes the
row and both artifacts, and its saved records are
`processing 10 [, processing 50, callbacks…], failed 0` — or the run
completed and its saved records are
`processing 10, processing 50, callbacks…, complete 100`, with the
callback records a subsequence of the full per-line progress updates. -/
theorem pipeline_run_cases (pid : String)
    (scriptRes : Except String (List Line)) (sid : String)
    (gen : Nat → Except String Unit) (exportRes : Except String Unit)
    (durRes : Except String ℚ) (now : String) (db0 : DB)
    (fs0 : List String) (td0 : Bool) (p0 : PodcastRec)
    (h0 : db0 pid = some p0) :
    (∃ msg, (_generate_podcast_pipeline pid scriptRes sid gen exportRes durRes
        now db0 fs0 td0).failed = some msg
      ∧ (∃ rec ∈ (_generate_podcast_pipeline pid scriptRes sid gen exportRes
            durRes now db0 fs0 td0).trace,
          rec.status = "failed" ∧ rec.stage = some "failed"
          ∧ rec.error_message = some msg ∧ rec.failed_at = some now)
      ∧ (_generate_podcast_pipeline pid scriptRes sid gen exportRes durRes now
          db0 fs0 td0).db pid = none
      ∧ audioName pid ∉ (_generate_podcast_pipeline pid scriptRes sid gen
          exportRes durRes now db0 fs0 td0).fs
      ∧ scriptName pid ∉ (_generate_podcast_pipeline pid scriptRes sid gen
          exportRes durRes now db0 fs0 td0).fs
      ∧ (((_generate_podcast_pipeline pid scriptRes sid gen exportRes durRes
            now db0 fs0 td0).trace.map
            fun rec => (rec.status, rec.progress_percentage))
          = [("processing", 10), ("failed", 0)]
        ∨ ∃ (n : ℕ) (cs : List (Nat × Nat)),
            cs.Sublist ((List.range n).map fun i => (i + 1, n))
            ∧ ((_generate_podcast_pipeline pid scriptRes sid gen exportRes
                durRes now db0 fs0 td0).trace.map
                fun rec => (rec.status, rec.progress_percentage))
              = ("processing", 10) :: ("processing", 50)
                :: (cs.map fun c => ("processing", callbackProgress c.1 c.2))
                  ++ [("failed", 0)]))
    ∨ ((_generate_podcast_pipeline pid scriptRes sid gen exportRes durRes now
          db0 fs0 td0).failed = none
      ∧ ∃ (n : ℕ) (cs : List (Nat × Nat)),
          cs.Sublist ((List.range n).map fun i => (i + 1, n))
          ∧ ((_generate_podcast_pipeline pid scriptRes sid gen exportRes durRes
              now db0 fs0 td0).trace.map
              fun rec => (rec.status, rec.progress_percentage))
            = ("processing", 10) :: ("processing", 50)
              :: (cs.map fun c => ("processing", callbackProgress c.1 c.2))
                ++ [("complete", 100)]) := by
  obtain ⟨db1, rec1, hu1⟩ := update_isOk db0 pid "processing" (some 10)
    (some "generating_script") none none none none now p0 h0
  have hf1 := update_fields db0 pid "processing" 10 (some "generating_script")
    none none none none now db1 rec1 hu1
  unfold _generate_podcast_pipeline
  rw [hu1]
  cases scriptRes with
  | error msg =>
    dsimp only
    have hp := pipelineFail_props pid msg now db1 fs0 td0 [rec1] rec1 hf1.2.2.1
    refine Or.inl ⟨msg, hp.1, hp.2.1, hp.2.2.1, hp.2.2.2.1, hp.2.2.2.2.1, ?_⟩
    left
    rw [hp.2.2.2.2.2]
    simp [hf1.1, hf1.2.1]
  | ok script =>
    dsimp only
    by_cases hval : validate_script script
    · rw [if_neg (not_not_intro hval)]
      obtain ⟨db2, rec2, hu2⟩ := update_isOk db1 pid "processing" (some 50)
        (some "synthesizing_audio") none
        (some ("/generated/podcasts/" ++ scriptName pid)) none none now rec1
        hf1.2.2.1
      have hf2 := update_fields db1 pid "processing" 50
        (some "synthesizing_audio") none
        (some ("/generated/podcasts/" ++ scriptName pid)) none none now db2
        rec2 hu2
      rw [hu2]
      dsimp only
      set sr := synthesize_audio script (audioName pid) sid gen exportRes
        (fsWrite fs0 (scriptName pid)) td0 with hsrdef
      set cb := applyCallbacks pid now db2 sr.calls with hcbdef
      have hsub : sr.calls.Sublist
          ((List.range script.length).map fun i => (i + 1, script.length)) :=
        synth_calls_sublist script (audioName pid) sid gen exportRes
          (fsWrite fs0 (scriptName pid)) td0
      obtain ⟨hpres3, htr3⟩ := applyCallbacks_spec pid now sr.calls db2 rec2
        hf2.2.2.1
      obtain ⟨p3, hp3⟩ := hpres3
      rw [← hcbdef] at hp3 htr3
      cases hres : sr.result with
      | error e =>
        have hp := pipelineFail_props pid e.message now cb.1 sr.files sr.tempDir
          (rec1 :: rec2 :: cb.2) p3 hp3
        refine Or.inl ⟨e.message, hp.1, hp.2.1, hp.2.2.1, hp.2.2.2.1,
          hp.2.2.2.2.1, Or.inr ⟨script.length, sr.calls, hsub, ?_⟩⟩
        rw [hp.2.2.2.2.2]
        simp [hf1.1, hf1.2.1, hf2.1, hf2.2.1, htr3]
      | ok path =>
        cases durRes with
        | error msg =>
          dsimp only
          have hp := pipelineFail_props pid msg now cb.1 sr.files sr.tempDir
            (rec1 :: rec2 :: cb.2) p3 hp3
          refine Or.inl ⟨msg, hp.1, hp.2.1, hp.2.2.1, hp.2.2.2.1,
            hp.2.2.2.2.1, Or.inr ⟨script.length, sr.calls, hsub, ?_⟩⟩
          rw [hp.2.2.2.2.2]
          simp [hf1.1, hf1.2.1, hf2.1, hf2.2.1, htr3]
        | ok dur =>
          dsimp only
          obtain ⟨db4, rec4, hu4⟩ := update_isOk cb.1 pid "complete" (some 100)
            (some "complete")
            (some ("/generated/podcasts/" ++ audioName pid)) none (some dur)
            none now p3 hp3
          have hf4 := update_fields cb.1 pid "complete" 100 (some "complete")
            (some ("/generated/podcasts/" ++ audioName pid)) none (some dur)
            none now db4 rec4 hu4
          rw [hu4]
          refine Or.inr ⟨rfl, script.length, sr.calls, hsub, ?_⟩
          simp [hf1.1, hf1.2.1, hf2.1, hf2.2.1, hf4.1, hf4.2.1, htr3]
    · rw [if_pos hval]
      have hp := pipelineFail_props pid "Generated script failed validation"
        now db1 fs0 td0 [rec1] rec1 hf1.2.2.1
      refine Or.inl ⟨_, hp.1, hp.2.1, hp.2.2.1, hp.2.2.2.1, hp.2.2.2.2.1, ?_⟩
      left
      rw [hp.2.2.2.2.2]
      simp [hf1.1, hf1.2.1]

/-- Claim C1: when the background pipeline for an existing job raises at
any stage, the handler records the failure once (status `failed`, stage
`failed`, the exception's message as error detail, failure timestamp)
and then cleanup removes the job record and both artifacts: afterwards
the id resolves to no record and neither the audio nor the script
artifact for the id remains on disk. -/
theorem pipeline_failure_cleanup (pid : String)
    (scriptRes : Except String (List Line)) (sid : String)
    (gen : Nat → Except String Unit) (exportRes : Except String Unit)
    (durRes : Except String ℚ) (now : String) (db0 : DB)
    (fs0 : List String) (td0 : Bool) (p0 : PodcastRec) (msg : String)
    (h0 : db0 pid = some p0)
    (hfail : (_generate_podcast_pipeline pid scriptRes sid gen exportRes durRes
      now db0 fs0 td0).failed = some msg) :
    (∃ rec ∈ (_generate_podcast_pipeline pid scriptRes sid gen exportRes durRes
        now db0 fs0 td0).trace,
      rec.status = "failed" ∧ rec.stage = some "failed"
      ∧ rec.error_message = some msg ∧ rec.failed_at = some now)
    ∧ (_generate_podcast_pipeline pid scriptRes sid gen exportRes durRes now
        db0 fs0 td0).db pid = none
    ∧ audioName pid ∉ (_generate_podcast_pipeline pid scriptRes sid gen
        exportRes durRes now db0 fs0 td0).fs
    ∧ scriptName pid ∉ (_generate_podcast_pipeline pid scriptRes sid gen
        exportRes durRes now db0 fs0 td0).fs := by
  rcases pipeline_run_cases pid scriptRes sid gen exportRes durRes now db0 fs0
      td0 p0 h0 with ⟨m, hm, hrec, hdb, ha, hs, -⟩ | ⟨hnone, -⟩
  · rw [hm] at hfail
    injection hfail with hmm
    subst hmm
    exact ⟨hrec, hdb, ha, hs⟩
  · rw [hnone] at hfail
    exact absurd hfail (by simp)

/-- A concrete existing job row used to witness the pipeline theorems. -/
def witnessRec : PodcastRec :=
  { podcast_id := "p"
    document_ids := ["d"]
    status := "processing"
    progress_percentage := 0
    stage := some "initializing"
    target_duration := some "short"
    audio_url := none
    script_url := none
    duration_seconds := none
    created_at := "t0"
    completed_at := none
    failed_at := none
    error_message := none }

/-- A one-row table holding `witnessRec` under id `"p"`. -/
def witnessDb : DB :=
  fun q => if q = "p" then some witnessRec else none

/-- Witness for `pipeline_failure_cleanup`: a run whose script stage
raises `"boom"` records the failure and leaves no row and no artifacts. -/
theorem pipeline_failure_cleanup_witness :
    (∃ rec ∈ (_generate_podcast_pipeline "p" (.error "boom") "s"
        (fun _ => .ok ()) (.ok ()) (.ok 1) "t1" witnessDb [] false).trace,
      rec.status = "failed" ∧ rec.stage = some "failed"
      ∧ rec.error_message = some "boom" ∧ rec.failed_at = some "t1")
    ∧ (_generate_podcast_pipeline "p" (.error "boom") "s" (fun _ => .ok ())
        (.ok ()) (.ok 1) "t1" witnessDb [] false).db "p" = none
    ∧ audioName "p" ∉ (_generate_podcast_pipeline "p" (.error "boom") "s"
        (fun _ => .ok ()) (.ok ()) (.ok 1) "t1" witnessDb [] false).fs
    ∧ scriptName "p" ∉ (_generate_podcast_pipeline "p" (.error "boom") "s"
        (fun _ => .ok ()) (.ok ()) (.ok 1) "t1" witnessDb [] false).fs :=
  pipeline_failure_cleanup "p" (.error "boom") "s" (fun _ => .ok ()) (.ok ())
    (.ok 1) "t1" witnessDb [] false witnessRec "boom" rfl rfl

/-- The callback progress value is monotone in the completed count. -/
theorem callbackProgress_mono (a b n : ℕ) (h : a ≤ b) :
    callbackProgress a n ≤ callbackProgress b n := by
  unfold callbackProgress
  have hd : (50 * a) / n ≤ (50 * b) / n :=
    Nat.div_le_div_right (Nat.mul_le_mul_left _ h)
  omega

/-- The callback progress of segment `i + 1` out of `n` lies in
`[50, 100]`. -/
theorem callbackProgress_bounds (i n : ℕ) (h : i < n) :
    50 ≤ callbackProgress (i + 1) n ∧ callbackProgress (i + 1) n ≤ 100 := by
  unfold callbackProgress
  have hn : 0 < n := lt_of_le_of_lt (Nat.zero_le i) h
  have h1 : (50 * (i + 1)) / n ≤ 50 := by
    have hb : 50 * (i + 1) ≤ 50 * n := Nat.mul_le_mul_left _ h
    have h2 : (50 * (i + 1)) / n ≤ (50 * n) / n := Nat.div_le_div_right hb
    rwa [Nat.mul_div_cancel 50 hn] at h2
  revert h1
  generalize (50 * (i + 1)) / n = d
  intro h1
  omega

/-- Filtering saved records on a status and reading their progress is
the same computation on the (status, progress) pairs. -/
theorem filter_status_map (tr : List PodcastRec) (s : String) :
    ((tr.filter fun rec => rec.status = s).map
      fun rec => rec.progress_percentage)
      = (((tr.map fun rec => (rec.status, rec.progress_percentage)).filter
          fun x => x.1 = s).map Prod.snd) := by
  induction tr with
  | nil => rfl
  | cons a t ih =>
    by_cases h : a.status = s <;> simp [h, ih]

/-- Every callback pair of a subsequence of the canonical per-line list
is `(i + 1, n)` for some `i < n`. -/
theorem mem_canonical_calls (n : ℕ) (cs : List (Nat × Nat))
    (hsub : cs.Sublist ((List.range n).map fun i => (i + 1, n))) :
    ∀ c ∈ cs, ∃ i, i < n ∧ c = (i + 1, n) := by
  intro c hc
  have := hsub.subset hc
  simp only [List.mem_map, List.mem_range] at this
  obtain ⟨i, hi, hci⟩ := this
  exact ⟨i, hi, hci.symm⟩

/-- The callback progress values of a subsequence of the canonical
per-line list are pairwise non-decreasing. -/
theorem canonical_calls_pairwise (n : ℕ) (cs : List (Nat × Nat))
    (hsub : cs.Sublist ((List.range n).map fun i => (i + 1, n))) :
    (cs.map fun c => callbackProgress c.1 c.2).Pairwise (· ≤ ·) := by
  rw [List.pairwise_map]
  refine List.Pairwise.sublist hsub ?_
  rw [List.pairwise_map]
  refine (List.pairwise_lt_range n).imp ?_
  intro a b hab
  exact callbackProgress_mono (a + 1) (b + 1) n (by omega)

/-- The progress invariants hold for a trace that failed before the
synthesis stage: records `processing 0, processing 10, failed 0`. -/
theorem invariants_of_shape1 (tr : List PodcastRec)
    (hps : (tr.map fun rec => (rec.status, rec.progress_percentage))
      = [("processing", 0), ("processing", 10), ("failed", 0)]) :
    (∀ rec ∈ tr, 0 ≤ rec.progress_percentage ∧ rec.progress_percentage ≤ 100)
    ∧ ((tr.filter fun rec => rec.status = "processing").map
        fun rec => rec.progress_percentage).Pairwise (· ≤ ·)
    ∧ (∀ rec ∈ tr, rec.status = "complete" →
        rec.progress_percentage = 100) := by
  refine ⟨?_, ?_, ?_⟩
  · intro rec hrec
    have hm : (rec.status, rec.progress_percentage)
        ∈ tr.map fun rec => (rec.status, rec.progress_percentage) :=
      List.mem_map_of_mem _ hrec
    rw [hps] at hm
    simp only [List.mem_cons, List.not_mem_nil, or_false,
      Prod.mk.injEq] at hm
    rcases hm with ⟨-, h⟩ | ⟨-, h⟩ | ⟨-, h⟩ <;> omega
  · rw [filter_status_map, hps]
    simp
  · intro rec hrec hc
    have hm : (rec.status, rec.progress_percentage)
        ∈ tr.map fun rec => (rec.status, rec.progress_percentage) :=
      List.mem_map_of_mem _ hrec
    rw [hps, hc] at hm
    simp at hm

/-- The progress invariants hold for a trace that reached the synthesis
stage: records `processing 0, 10, 50`, then one `processing` record per
callback (a subsequence of the full per-line updates), then `failed 0`
or `complete 100`. -/
theorem invariants_of_shape (tr : List PodcastRec) (n : ℕ)
    (cs : List (Nat × Nat))
    (hsub : cs.Sublist ((List.range n).map fun i => (i + 1, n)))
    (last : String × ℤ)
    (hlast : last = ("failed", 0) ∨ last = ("complete", 100))
    (hps : (tr.map fun rec => (rec.status, rec.progress_percentage))
      = ("processing", 0) :: ("processing", 10) :: ("processing", 50)
        :: ((cs.map fun c => ("processing", callbackProgress c.1 c.2))
          ++ [last])) :
    (∀ rec ∈ tr, 0 ≤ rec.progress_percentage ∧ rec.progress_percentage ≤ 100)
    ∧ ((tr.filter fun rec => rec.status = "processing").map
        fun rec => rec.progress_percentage).Pairwise (· ≤ ·)
    ∧ (∀ rec ∈ tr, rec.status = "complete" →
        rec.progress_percentage = 100) := by
  have hbounds : ∀ c ∈ cs, 50 ≤ callbackProgress c.1 c.2
      ∧ callbackProgress c.1 c.2 ≤ 100 := by
    intro c hc
    obtain ⟨i, hi, hci⟩ := mem_canonical_calls n cs hsub c hc
    subst hci
    exact callbackProgress_bounds i n hi
  refine ⟨?_, ?_, ?_⟩
  · intro rec hrec
    have hm : (rec.status, rec.progress_percentage)
        ∈ tr.map fun rec => (rec.status, rec.progress_percentage) :=
      List.mem_map_of_mem _ hrec
    rw [hps] at hm
    simp only [List.mem_cons, List.mem_append, List.mem_singleton,
      List.not_mem_nil, or_false, List.mem_map, Prod.mk.injEq] at hm
    rcases hm with ⟨-, h⟩ | ⟨-, h⟩ | ⟨-, h⟩ | ⟨c, hc, -, h⟩ | h
    · omega
    · omega
    · omega
    · have := hbounds c hc
      omega
    · rcases hlast with hl | hl
      · rw [hl] at h
        obtain ⟨-, h2⟩ := Prod.mk.injEq .. |>.mp h
        omega
      · rw [hl] at h
        obtain ⟨-, h2⟩ := Prod.mk.injEq .. |>.mp h
        omega
  · rw [filter_status_map, hps]
    have hall : ((cs.map fun c => ("processing", callbackProgress c.1 c.2))
        : List (String × ℤ)).filter (fun x => x.1 = "processing")
        = cs.map fun c => ("processing", callbackProgress c.1 c.2) := by
      rw [List.filter_eq_self]
      intro a ha
      simp only [List.mem_map] at ha
      obtain ⟨c, -, hc⟩ := ha
      subst hc
      simp
    have hlastf : (([last] : List (String × ℤ)).filter
        fun x => x.1 = "processing") = [] := by
      rcases hlast with hl | hl <;> subst hl <;> simp
    have hfilter : (((("processing", 0) :: ("processing", 10)
        :: ("processing", 50)
        :: ((cs.map fun c => ("processing", callbackProgress c.1 c.2))
          ++ [last])) : List (String × ℤ)).filter fun x => x.1 = "processing")
        = ("processing", 0) :: ("processing", 10) :: ("processing", 50)
          :: (cs.map fun c => ("processing", callbackProgress c.1 c.2)) := by
      simp [List.filter_cons, List.filter_append, hall, hlastf]
    rw [hfilter]
    have hmap : ((cs.map fun c => ("processing", callbackProgress c.1 c.2)).map
        Prod.snd) = cs.map fun c => callbackProgress c.1 c.2 := by
      rw [List.map_map]
      rfl
    simp only [List.map_cons, hmap]
    refine List.pairwise_cons.mpr ⟨?_, List.pairwise_cons.mpr ⟨?_,
      List.pairwise_cons.mpr ⟨?_, canonical_calls_pairwise n cs hsub⟩⟩⟩
    · intro b hb
      simp only [List.mem_cons, List.mem_map] at hb
      rcases hb with h | h | ⟨c, hc, hcb⟩
      · omega
      · omega
      · have := hbounds c hc
        omega
    · intro b hb
      simp only [List.mem_cons, List.mem_map] at hb
      rcases hb with h | ⟨c, hc, hcb⟩
      · omega
      · have := hbounds c hc
        omega
    · intro b hb
      simp only [List.mem_map] at hb
      obtain ⟨c, hc, hcb⟩ := hb
      have := hbounds c hc
      omega
  · intro rec hrec hc
    have hm : (rec.status, rec.progress_percentage)
        ∈ tr.map fun rec => (rec.status, rec.progress_percentage) :=
      List.mem_map_of_mem _ hrec
    rw [hps, hc] at hm
    simp only [List.mem_cons, List.mem_append, List.mem_singleton,
      List.not_mem_nil, or_false, List.mem_map, Prod.mk.injEq] at hm
    rcases hm with ⟨h, -⟩ | ⟨h, -⟩ | ⟨h, -⟩ | ⟨c, hc2, h, -⟩ | h
    · exact absurd h (by decide)
    · exact absurd h (by decide)
    · exact absurd h (by decide)
    · exact absurd h (by decide)
    · rcases hlast with hl | hl
      · rw [hl] at h
        obtain ⟨h1, -⟩ := Prod.mk.injEq .. |>.mp h
        exact absurd h1 (by decide)
      · rw [hl] at h
        obtain ⟨-, h2⟩ := Prod.mk.injEq .. |>.mp h
        exact h2

/-- A four-line valid script used to exercise a successful run. -/
def demoScript : List Line :=
  [⟨"host", "Hello and welcome"⟩, ⟨"guest", "Thanks for having me"⟩,
   ⟨"host", "Tell us about it"⟩, ⟨"guest", "Here is the story"⟩]

/-- Counterexample to claim C3: in a successful run over a 4-line
script, the final synthesis progress callback saves a record with
progress 100 while the status is still `processing`, so progress 100
does not imply status `complete`. -/
theorem progress_100_while_processing_counterexample :
    ∃ rec ∈ jobTrace ⟨["d"], "topic", 5⟩ "p" (.ok demoScript) "s"
        (fun _ => .ok ()) (.ok ()) (.ok 1) "t1" (fun _ => none) [] false,
      rec.status = "processing" ∧ rec.progress_percentage = 100 := by
  decide

/-- Claim C3 (amended): across the records saved for one job, progress
is an integer in 0–100, the progress values of the `processing` records
are monotonically non-decreasing in save order, and a `complete` record
has progress 100; progress 100 while still `processing` does occur (at
the final synthesis callback), so the converse fails. -/
theorem progress_invariants (req : GenerateRequest) (pid : String)
    (scriptRes : Except String (List Line)) (sid : String)
    (gen : Nat → Except String Unit) (exportRes : Except String Unit)
    (durRes : Except String ℚ) (now : String) (db0 : DB) (fs0 : List String)
    (td0 : Bool) :
    (∀ rec ∈ jobTrace req pid scriptRes sid gen exportRes durRes now db0 fs0
        td0, 0 ≤ rec.progress_percentage ∧ rec.progress_percentage ≤ 100)
    ∧ (((jobTrace req pid scriptRes sid gen exportRes durRes now db0 fs0
        td0).filter fun rec => rec.status = "processing").map
        fun rec => rec.progress_percentage).Pairwise (· ≤ ·)
    ∧ (∀ rec ∈ jobTrace req pid scriptRes sid gen exportRes durRes now db0 fs0
        td0, rec.status = "complete" → rec.progress_percentage = 100) := by
  have hpres : (generate_podcast req pid now db0).db pid
      = some (generate_podcast req pid now db0).record := by
    simp [generate_podcast, dbInsert]
  have hj : ((jobTrace req pid scriptRes sid gen exportRes durRes now db0 fs0
      td0).map fun rec => (rec.status, rec.progress_percentage))
      = ("processing", 0)
        :: ((_generate_podcast_pipeline pid scriptRes sid gen exportRes durRes
          now (generate_podcast req pid now db0).db fs0 td0).trace.map
          fun rec => (rec.status, rec.progress_percentage)) := rfl
  rcases pipeline_run_cases pid scriptRes sid gen exportRes durRes now
      (generate_podcast req pid now db0).db fs0 td0
      (generate_podcast req pid now db0).record hpres with
      ⟨m, -, -, -, -, -, hshape⟩ | ⟨-, n, cs, hsub, hshape⟩
  · rcases hshape with h1 | ⟨n, cs, hsub, h2⟩
    · exact invariants_of_shape1 _ (hj.trans (by rw [h1]))
    · exact invariants_of_shape _ n cs hsub ("failed", 0) (Or.inl rfl)
        (hj.trans (by rw [h2]; simp))
  · exact invariants_of_shape _ n cs hsub ("complete", 100) (Or.inr rfl)
      (hj.trans (by rw [hshape]; simp))

end Podcast
